import Mathlib

/-!
Verification of the core of the edash-packager media-packaging sources:
the AVC decoder-configuration-record parse routine
(packager/media/codecs/avc_decoder_configuration_record.cc) and the MP4
fragment builder (packager/media/formats/mp4/fragmenter.cc).

The C++ sources are shallowly embedded: bytes are natural numbers below 256,
the buffer cursor is an explicit structure, stateful methods become state
passing functions, and the external collaborators (NAL-unit classification
and parameter-set decoding) are oracle function parameters.
-/

set_option autoImplicit false
set_option linter.unreachableTactic false
set_option linter.unusedTactic false

namespace EDash

/-! ## Buffer cursor

Embeds the BufferReader capability used by ParseInternal: fixed-width
big-endian reads, N-byte skip, and a remaining-bytes query, each failing
explicitly when insufficient bytes remain. -/

structure Reader where
  data : List Nat
  pos : Nat
deriving DecidableEq, Repr

def Reader.read1 (r : Reader) : Option (Nat × Reader) :=
  if r.pos + 1 ≤ r.data.length then
    some (r.data.getD r.pos 0, { r with pos := r.pos + 1 })
  else none

def Reader.read2 (r : Reader) : Option (Nat × Reader) :=
  if r.pos + 2 ≤ r.data.length then
    some (256 * r.data.getD r.pos 0 + r.data.getD (r.pos + 1) 0,
          { r with pos := r.pos + 2 })
  else none

def Reader.skipBytes (r : Reader) (n : Nat) : Option Reader :=
  if r.pos + n ≤ r.data.length then some { r with pos := r.pos + n } else none

def Reader.hasBytes (r : Reader) (n : Nat) : Bool :=
  decide (r.pos + n ≤ r.data.length)

/-- Byte span of length n starting at the cursor position. -/
def Reader.slice (r : Reader) (n : Nat) : List Nat :=
  (r.data.drop r.pos).take n

/-! ## AVC decoder configuration record -/

/-- A classified NAL unit held by the record: the byte view plus the type tag
returned by the classification capability. -/
structure NaluRec where
  bytes : List Nat
  ntype : Nat
deriving DecidableEq, Repr

/-- Mutable state of an AVCDecoderConfigurationRecord object: the fields
written by ParseInternal. -/
structure RecordState where
  version : Nat := 0
  profile_indication : Nat := 0
  profile_compatibility : Nat := 0
  avc_level : Nat := 0
  nalu_length_size : Nat := 0
  transfer_characteristics : Nat := 0
  coded_width : Nat := 0
  coded_height : Nat := 0
  pixel_width : Nat := 0
  pixel_height : Nat := 0
  nalus : List NaluRec := []
deriving DecidableEq, Repr

/-- A freshly constructed record object: all fields zero, no NAL units. -/
def defaultRecord : RecordState := {}

/-- Modelled from the spec: the primary parameter-set (SPS) type tag of the
external NAL-unit classification capability (Nalu::H264_SPS, outside the
analyzed source). -/
def hSPS : Nat := 7

/-- Modelled from the spec: the secondary parameter-set (PPS) type tag of the
external NAL-unit classification capability (Nalu::H264_PPS, outside the
analyzed source). -/
def hPPS : Nat := 8

/-- Oracle for Nalu::Initialize plus Nalu::type on a byte span: classification
failure is none, success returns the type tag. -/
abbrev NaluOracle := List Nat → Option Nat

/-- Oracle for H264Parser::ParseSps followed by GetSps: failure is none,
success returns the transfer characteristics of the decoded SPS. -/
abbrev SpsTcOracle := List Nat → Option Nat

/-- Oracle for ExtractResolutionFromSps: failure is none, success returns
coded width, coded height, pixel width, pixel height. -/
abbrev SpsResOracle := List Nat → Option (Nat × Nat × Nat × Nat)

deriving instance DecidableEq for Except

/-- The 4-byte header reads of ParseInternal: version (checked to be 1),
profile_indication, profile_compatibility, avc_level, each written to the
record as it is read. -/
def headerStage (rd : Reader) (st : RecordState) :
    Except RecordState (Reader × RecordState) :=
  match rd.read1 with
  | none => .error st
  | some (v, rd) =>
    let st := { st with version := v }
    if v ≠ 1 then .error st else
    match rd.read1 with
    | none => .error st
    | some (pi, rd) =>
      let st := { st with profile_indication := pi }
      match rd.read1 with
      | none => .error st
      | some (pc, rd) =>
        let st := { st with profile_compatibility := pc }
        match rd.read1 with
        | none => .error st
        | some (lv, rd) => .ok (rd, { st with avc_level := lv })

/-- The length-size byte of ParseInternal: the low 2 bits are extracted, the
reserved masked value 2 fails, otherwise nalu_length_size is set to the
masked value plus one. -/
def lenSizeStage (rd : Reader) (st : RecordState) :
    Except RecordState (Reader × RecordState) :=
  match rd.read1 with
  | none => .error st
  | some (b, rd) =>
    if b &&& 3 = 2 then .error st
    else .ok (rd, { st with nalu_length_size := (b &&& 3) + 1 })

/-- One length-prefixed NAL unit list of ParseInternal: n units, each a
2-byte big-endian length, a skip over that many bytes, classification via
the oracle, a type check against the expected tag, and an append. -/
def parseUnitLoop (nal : NaluOracle) (expected : Nat) :
    Nat → Reader → RecordState → Except RecordState (Reader × RecordState)
  | 0, rd, st => .ok (rd, st)
  | n + 1, rd, st =>
    match rd.read2 with
    | none => .error st
    | some (size, rd) =>
      let unit := rd.slice size
      match rd.skipBytes size with
      | none => .error st
      | some rd =>
        match nal unit with
        | none => .error st
        | some t =>
          if t ≠ expected then .error st
          else parseUnitLoop nal expected n rd
            { st with nalus := st.nalus ++ [⟨unit, t⟩] }

/-- The SPS unit list of ParseInternal including the extra decode of exactly
the first unit: transfer characteristics are written after the SPS parse
succeeds, then the resolution fields after extraction succeeds. -/
def spsLoop (nal : NaluOracle) (tc : SpsTcOracle) (res : SpsResOracle) :
    Bool → Nat → Reader → RecordState → Except RecordState (Reader × RecordState)
  | _, 0, rd, st => .ok (rd, st)
  | first, n + 1, rd, st =>
    match rd.read2 with
    | none => .error st
    | some (size, rd) =>
      let unit := rd.slice size
      match rd.skipBytes size with
      | none => .error st
      | some rd =>
        match nal unit with
        | none => .error st
        | some t =>
          if t ≠ hSPS then .error st
          else
            let st := { st with nalus := st.nalus ++ [⟨unit, t⟩] }
            if first then
              match tc unit with
              | none => .error st
              | some tcv =>
                let st := { st with transfer_characteristics := tcv }
                match res unit with
                | none => .error st
                | some (cw, ch, pw, ph) =>
                  spsLoop nal tc res false n rd
                    { st with coded_width := cw, coded_height := ch,
                               pixel_width := pw, pixel_height := ph }
            else spsLoop nal tc res false n rd st

/-- The SPS count byte (masked to 5 bits; a zero count is merely logged) and
the SPS unit list. -/
def spsStage (nal : NaluOracle) (tc : SpsTcOracle) (res : SpsResOracle)
    (rd : Reader) (st : RecordState) :
    Except RecordState (Reader × RecordState) :=
  match rd.read1 with
  | none => .error st
  | some (b, rd) => spsLoop nal tc res true (b &&& 0x1f) rd st

/-- The PPS count byte (unmasked) and the PPS unit list. -/
def ppsStage (nal : NaluOracle) (rd : Reader) (st : RecordState) :
    Except RecordState (Reader × RecordState) :=
  match rd.read1 with
  | none => .error st
  | some (b, rd) => parseUnitLoop nal hPPS b rd st

/-- The profile special-case block of ParseInternal: entered only for
profile_indication 100, 110, 122 or 144; with fewer than 4 bytes remaining
a warning is logged and the stage succeeds unchanged; otherwise 3 reserved
bytes are skipped, an unmasked count byte is read, and that many units are
extracted expecting the PPS type. -/
def extStage (nal : NaluOracle) (rd : Reader) (st : RecordState) :
    Except RecordState (Reader × RecordState) :=
  if st.profile_indication = 100 ∨ st.profile_indication = 110 ∨
     st.profile_indication = 122 ∨ st.profile_indication = 144 then
    if rd.hasBytes 4 then
      match rd.skipBytes 3 with
      | none => .error st
      | some rd =>
        match rd.read1 with
        | none => .error st
        | some (b, rd) => parseUnitLoop nal hPPS b rd st
    else .ok (rd, st)
  else .ok (rd, st)

/-- Stages of ParseInternal up to the end of the PPS unit list. -/
def stagesThroughPps (nal : NaluOracle) (tc : SpsTcOracle) (res : SpsResOracle)
    (input : List Nat) (rec₀ : RecordState) :
    Except RecordState (Reader × RecordState) :=
  match headerStage ⟨input, 0⟩ rec₀ with
  | .error r => .error r
  | .ok (rd, st) =>
    match lenSizeStage rd st with
    | .error r => .error r
    | .ok (rd, st) =>
      match spsStage nal tc res rd st with
      | .error r => .error r
      | .ok (rd, st) => ppsStage nal rd st

/-- AVCDecoderConfigurationRecord::ParseInternal: returns the C++ boolean
result together with the record state as left by the call (fields written
before a failing check remain written). -/
def parseInternal (nal : NaluOracle) (tc : SpsTcOracle) (res : SpsResOracle)
    (input : List Nat) (rec₀ : RecordState) : Bool × RecordState :=
  match stagesThroughPps nal tc res input rec₀ with
  | .error r => (false, r)
  | .ok (rd, st) =>
    match extStage nal rd st with
    | .error r => (false, r)
    | .ok (_, r) => (true, r)

/-- Modelled from the spec: the public parse contract
parse(bytes) -> Record | ParseError (the wrapper around ParseInternal lives
outside the analyzed source). Parsing starts from a fresh record; on success
the populated record is the result, on failure no record is returned. -/
def parseRecord (nal : NaluOracle) (tc : SpsTcOracle) (res : SpsResOracle)
    (input : List Nat) : Option RecordState :=
  let r := parseInternal nal tc res input defaultRecord
  if r.1 then some r.2 else none

/-- Trivial classification oracle used to instantiate concrete checks. -/
def noNalu : NaluOracle := fun _ => none

/-- Trivial SPS-decode oracle used to instantiate concrete checks. -/
def noTc : SpsTcOracle := fun _ => none

/-- Trivial resolution oracle used to instantiate concrete checks. -/
def noRes : SpsResOracle := fun _ => none

/-! ## Codec string -/

/-- Lowercase hexadecimal digits used by the codec-string encoding. -/
def hexDigits : List Char := (List.range 16).map Nat.digitChar

/-- Two lowercase hexadecimal digits of one byte, the composition of
base HexEncode with lowercasing used by GetCodecString. -/
def byteToLowerHex (b : Nat) : String :=
  String.mk [hexDigits.getD (b % 256 / 16) '0', hexDigits.getD (b % 16) '0']

/-- AVCDecoderConfigurationRecord::GetCodecString: the container tag, a dot,
then profile_indication, profile_compatibility and avc_level as six
lowercase hexadecimal digits. -/
def getCodecString (tag : String) (profile compat level : Nat) : String :=
  tag ++ "." ++ byteToLowerHex profile ++ byteToLowerHex compat ++
    byteToLowerHex level

/-! ## MP4 fragment builder

Embeds Fragmenter (fragmenter.cc) together with the parts of the caller
owned TrackFragment box it mutates. Timestamps are 64-bit signed integers;
the sentinel for an unset timestamp is the maximum int64 value. -/

/-- Modelled from the spec: the sentinel maximum 64-bit integer used by the
fragment builder to mean an unset timestamp. -/
def kInvalidTime : Int := 9223372036854775807

/-- Modelled from the spec: single-bit presence masks of the Track Fragment
Run box (box definitions are outside the analyzed source). -/
def kDataOffsetPresentMask : Nat := 0x000001

/-- Modelled from the spec: per-sample duration presence mask of the run. -/
def kSampleDurationPresentMask : Nat := 0x000100

/-- Modelled from the spec: per-sample size presence mask of the run. -/
def kSampleSizePresentMask : Nat := 0x000200

/-- Modelled from the spec: per-sample flags presence mask of the run. -/
def kSampleFlagsPresentMask : Nat := 0x000400

/-- Modelled from the spec: per-sample composition-time-offset presence mask
of the run. -/
def kSampleCompTimeOffsetsPresentMask : Nat := 0x000800

/-- Modelled from the spec: default sample duration presence mask of the
Track Fragment Header. -/
def kDefaultSampleDurationPresentMask : Nat := 0x000008

/-- Modelled from the spec: default sample size presence mask of the header. -/
def kDefaultSampleSizePresentMask : Nat := 0x000010

/-- Modelled from the spec: default sample flags presence mask of the header. -/
def kDefaultSampleFlagsPresentMask : Nat := 0x000020

/-- Modelled from the spec: sample description index presence mask of the
header. -/
def kSampleDescriptionIndexPresentMask : Nat := 0x000002

/-- Modelled from the spec: default-base-is-moof mask of the header. -/
def kDefaultBaseIsMoofMask : Nat := 0x020000

/-- Modelled from the spec: the non-key-sample bit of a sample flags word. -/
def kNonKeySampleMask : Nat := 0x10000

/-- Modelled from the spec: base of track-level group description indices. -/
def kTrackGroupDescriptionIndexBase : Nat := 0

/-- Modelled from the spec: base of fragment-level group description
indices. -/
def kTrackFragmentGroupDescriptionIndexBase : Nat := 0x10000

/-- Modelled from the spec: the four-character code of the roll sample
grouping type. -/
def fourccRoll : Nat := 0x726f6c6c

/-- A media sample handed to the fragment builder: timestamp pair, duration,
key-frame flag and payload bytes (side data is ignored by the builder). -/
structure Sample where
  pts : Int
  dts : Int
  duration : Int
  isKeyFrame : Bool
  payload : List Nat
deriving DecidableEq, Repr, Inhabited

/-- The Track Fragment Run box fields touched by the builder. -/
structure TrackFragmentRun where
  flags : Nat := 0
  sample_count : Nat := 0
  sample_sizes : List Nat := []
  sample_durations : List Int := []
  sample_flags : List Nat := []
  sample_composition_time_offsets : List Int := []
deriving DecidableEq, Repr

/-- The Track Fragment Header box fields touched by the builder. -/
structure TrackFragmentHeader where
  flags : Nat := 0
  default_sample_duration : Int := 0
  default_sample_size : Nat := 0
  default_sample_flags : Nat := 0
  sample_description_index : Nat := 0
deriving DecidableEq, Repr

/-- One entry of a Sample-to-Group box. -/
structure SampleToGroupEntry where
  sample_count : Nat := 0
  group_description_index : Nat := 0
deriving DecidableEq, Repr

/-- A Sample-to-Group box: a grouping type and its entries. -/
structure SampleToGroup where
  grouping_type : Nat := 0
  entries : List SampleToGroupEntry := []
deriving DecidableEq, Repr

/-- A Sample Group Description box as far as the builder reads it: its
grouping type (the per-group payload is irrelevant here). -/
structure SampleGroupDescription where
  grouping_type : Nat := 0
deriving DecidableEq, Repr

/-- The caller-owned Track Fragment box mutated by the builder. -/
structure TrackFragment where
  header : TrackFragmentHeader := {}
  decode_time : Int := 0
  runs : List TrackFragmentRun := []
  sample_group_descriptions : List SampleGroupDescription := []
  sample_to_groups : List SampleToGroup := []
deriving DecidableEq, Repr

/-- State of a Fragmenter object together with its bound TrackFragment. -/
structure Fragmenter where
  traf : TrackFragment := {}
  seekPreroll : Nat := 0
  fragment_initialized : Bool := false
  fragment_finalized : Bool := false
  fragment_duration : Int := 0
  earliest_presentation_time : Int := kInvalidTime
  first_sap_time : Int := kInvalidTime
  data : List Nat := []
deriving DecidableEq, Repr

/-- A freshly constructed Fragmenter bound to a default-initialized
TrackFragment, with the seek preroll taken from the stream info. -/
def mkFragmenter (preroll : Nat) : Fragmenter := { seekPreroll := preroll }

/-- The first run of the track fragment (the builder only ever uses run 0). -/
def run0 (f : Fragmenter) : TrackFragmentRun := f.traf.runs.headD {}

/-- Applies an update to run 0 of a track fragment, as the C++ writes to
traf->runs[0]. -/
def updateRun0 (t : TrackFragment) (g : TrackFragmentRun → TrackFragmentRun) :
    TrackFragment :=
  { t with runs := match t.runs with
                   | [] => []
                   | r :: rs => g r :: rs }

/-- Fragmenter::InitializeFragment: resets the track fragment to a single
fresh run with the data-offset bit, clears groupings, sets the header base
flags and description index, resets the accumulators and the scratch
buffer. -/
def Fragmenter.initFragment (f : Fragmenter) (first_sample_dts : Int) :
    Fragmenter :=
  { f with
    fragment_initialized := true
    fragment_finalized := false
    traf := { f.traf with
      decode_time := first_sample_dts
      runs := [{ flags := kDataOffsetPresentMask }]
      sample_group_descriptions := []
      sample_to_groups := []
      header := { f.traf.header with
        sample_description_index := 1
        flags := kDefaultBaseIsMoofMask ||| kSampleDescriptionIndexPresentMask } }
    fragment_duration := 0
    earliest_presentation_time := kInvalidTime
    first_sap_time := kInvalidTime
    data := [] }

/-- The timestamp selected for the media timeline: decode time when the
decoding-timestamp mode is configured, presentation time otherwise. -/
def selTs (useDts : Bool) (s : Sample) : Int := if useDts then s.dts else s.pts

/-- Fragmenter::AddSample: lazily opens the fragment from this sample's
decode time, appends size, duration and flags to run 0, appends the payload,
accumulates the duration, lowers the earliest presentation time, appends the
composition offset (setting its presence bit when pts and dts differ) and
records the first key frame presentation time. -/
def Fragmenter.addSample (useDts : Bool) (f : Fragmenter) (s : Sample) :
    Fragmenter :=
  let f := if f.fragment_initialized then f else f.initFragment s.dts
  let f := { f with traf := updateRun0 f.traf fun r =>
    { r with
      sample_sizes := r.sample_sizes ++ [s.payload.length]
      sample_durations := r.sample_durations ++ [s.duration]
      sample_flags := r.sample_flags ++
        [if s.isKeyFrame then 0 else kNonKeySampleMask] } }
  let f := { f with
    data := f.data ++ s.payload
    fragment_duration := f.fragment_duration + s.duration }
  let ts := selTs useDts s
  let f := if ts < f.earliest_presentation_time then
             { f with earliest_presentation_time := ts } else f
  let f := { f with traf := updateRun0 f.traf fun r =>
    { r with sample_composition_time_offsets :=
        r.sample_composition_time_offsets ++ [s.pts - s.dts] } }
  let f := if s.pts = s.dts then f
           else { f with traf := updateRun0 f.traf fun r =>
             { r with flags := r.flags ||| kSampleCompTimeOffsetsPresentMask } }
  if s.isKeyFrame ∧ f.first_sap_time = kInvalidTime then
    { f with first_sap_time := s.pts }
  else f

/-- Modelled from the spec: OptimizeSampleEntries (declared outside the
analyzed source). When every value of the array is identical the common
value is promoted (the array collapses away and the value is reported for
the header default); otherwise the explicit array is kept. -/
def optimizeSampleEntries {α : Type} [DecidableEq α] : List α → Option α
  | [] => none
  | x :: xs => if xs.all fun y => decide (y = x) then some x else none

/-- Fragmenter::FinalizeFragment: sets the sample count from the run length,
promotes each uniform per-sample array to the matching header default
(setting the header presence bit) or keeps the explicit array (setting the
run presence bit), then builds the sample-to-group boxes: one roll box
referencing the track level when seek preroll is positive, then one box per
attached sample group description referencing the fragment level, every
entry counting all samples of the run. -/
def Fragmenter.finalizeFragment (f : Fragmenter) : Fragmenter :=
  match f.traf.runs with
  | [] => f
  | r :: rs =>
    let r := { r with sample_count := r.sample_sizes.length }
    let h := f.traf.header
    let p1 := match optimizeSampleEntries r.sample_durations with
      | some d => ({ r with sample_durations := [] },
                   { h with default_sample_duration := d,
                            flags := h.flags ||| kDefaultSampleDurationPresentMask })
      | none => ({ r with flags := r.flags ||| kSampleDurationPresentMask }, h)
    let r := p1.1
    let h := p1.2
    let p2 := match optimizeSampleEntries r.sample_sizes with
      | some d => ({ r with sample_sizes := [] },
                   { h with default_sample_size := d,
                            flags := h.flags ||| kDefaultSampleSizePresentMask })
      | none => ({ r with flags := r.flags ||| kSampleSizePresentMask }, h)
    let r := p2.1
    let h := p2.2
    let p3 := match optimizeSampleEntries r.sample_flags with
      | some d => ({ r with sample_flags := [] },
                   { h with default_sample_flags := d,
                            flags := h.flags ||| kDefaultSampleFlagsPresentMask })
      | none => ({ r with flags := r.flags ||| kSampleFlagsPresentMask }, h)
    let r := p3.1
    let h := p3.2
    let rollBoxes : List SampleToGroup :=
      if f.seekPreroll > 0 then
        [{ grouping_type := fourccRoll,
           entries := [{ sample_count := r.sample_count,
                         group_description_index :=
                           kTrackGroupDescriptionIndexBase + 1 }] }]
      else []
    let descBoxes : List SampleToGroup :=
      f.traf.sample_group_descriptions.map fun d =>
        { grouping_type := d.grouping_type,
          entries := [{ sample_count := r.sample_count,
                        group_description_index :=
                          kTrackFragmentGroupDescriptionIndexBase + 1 }] }
    { f with
      traf := { f.traf with
        runs := r :: rs
        header := h
        sample_to_groups := f.traf.sample_to_groups ++ rollBoxes ++ descBoxes }
      fragment_finalized := true
      fragment_initialized := false }

/-- SAP classification of a segment reference. -/
inductive SapType where
  | typeUnknown
  | type1
deriving DecidableEq, Repr

/-- The per-fragment segment reference summary. -/
structure SegmentReference where
  reference_type : Bool := false
  subsegment_duration : Int := 0
  starts_with_sap : Bool := false
  sap_type : SapType := .typeUnknown
  sap_delta_time : Int := 0
  earliest_presentation_time : Int := 0
deriving DecidableEq, Repr

/-- Fragmenter::StartsWithSAP: the first sample's effective flags word, read
from the explicit per-sample array when its presence bit is set and from the
header default otherwise; the fragment starts with a SAP when the non-key
bit of that word is clear. -/
def Fragmenter.startsWithSAP (f : Fragmenter) : Bool :=
  let r := run0 f
  let startFlag :=
    if r.flags &&& kSampleFlagsPresentMask ≠ 0 then r.sample_flags.headD 0
    else f.traf.header.default_sample_flags
  decide (startFlag &&& kNonKeySampleMask = 0)

/-- Fragmenter::GenerateSegmentReference: no daisy chaining, the accumulated
duration, the SAP start flag, Type1 with the recorded first SAP delta when a
SAP time was recorded and Unknown with delta 0 otherwise, and the earliest
presentation time. -/
def Fragmenter.generateSegmentReference (f : Fragmenter) : SegmentReference :=
  { reference_type := false
    subsegment_duration := f.fragment_duration
    starts_with_sap := f.startsWithSAP
    sap_type := if f.first_sap_time = kInvalidTime then .typeUnknown else .type1
    sap_delta_time :=
      if f.first_sap_time = kInvalidTime then 0
      else f.first_sap_time - f.earliest_presentation_time
    earliest_presentation_time := f.earliest_presentation_time }

/-- The builder state reached by adding the given samples, in order, to a
fresh Fragmenter. -/
def buildFragment (preroll : Nat) (useDts : Bool) (samples : List Sample) :
    Fragmenter :=
  samples.foldl (Fragmenter.addSample useDts) (mkFragmenter preroll)

/-! ## Closed forms used by the specifications -/

/-- The flags word pushed for one sample. -/
def sampleFlagWord (s : Sample) : Nat :=
  if s.isKeyFrame then 0 else kNonKeySampleMask

/-- Fold computing the earliest selected timestamp, starting from the unset
sentinel. -/
def selMin (useDts : Bool) (samples : List Sample) : Int :=
  samples.foldl (fun a s => if selTs useDts s < a then selTs useDts s else a)
    kInvalidTime

/-- Fold computing the recorded first SAP time, starting from the unset
sentinel. -/
def sapFold (samples : List Sample) : Int :=
  samples.foldl
    (fun a s => if s.isKeyFrame ∧ a = kInvalidTime then s.pts else a)
    kInvalidTime

/-- Run flags of an open fragment: the data-offset bit, plus the composition
offsets bit when some sample has distinct pts and dts. -/
def openRunFlags (samples : List Sample) : Nat :=
  if samples.any fun s => decide (s.pts ≠ s.dts) then
    kDataOffsetPresentMask ||| kSampleCompTimeOffsetsPresentMask
  else kDataOffsetPresentMask

/-- Closed form of the builder state on a nonempty sample list. -/
def openState (preroll : Nat) (useDts : Bool) (samples : List Sample) :
    Fragmenter :=
  { traf := {
      header := { flags := kDefaultBaseIsMoofMask |||
                           kSampleDescriptionIndexPresentMask,
                  sample_description_index := 1 }
      decode_time := ((samples.headD default).dts)
      runs := [{
        flags := openRunFlags samples
        sample_count := 0
        sample_sizes := samples.map fun s => s.payload.length
        sample_durations := samples.map Sample.duration
        sample_flags := samples.map sampleFlagWord
        sample_composition_time_offsets := samples.map fun s => s.pts - s.dts }]
      sample_group_descriptions := []
      sample_to_groups := [] }
    seekPreroll := preroll
    fragment_initialized := true
    fragment_finalized := false
    fragment_duration := (samples.map Sample.duration).sum
    earliest_presentation_time := selMin useDts samples
    first_sap_time := sapFold samples
    data := (samples.map Sample.payload).flatten }

/-! ## Builder closed-form lemmas -/

theorem selMin_append (useDts : Bool) (acc : List Sample) (s : Sample) :
    selMin useDts (acc ++ [s]) =
      if selTs useDts s < selMin useDts acc then selTs useDts s
      else selMin useDts acc := by
  simp [selMin, List.foldl_append]

theorem sapFold_append (acc : List Sample) (s : Sample) :
    sapFold (acc ++ [s]) =
      if s.isKeyFrame ∧ sapFold acc = kInvalidTime then s.pts
      else sapFold acc := by
  simp [sapFold, List.foldl_append]

theorem openRunFlags_append (acc : List Sample) (s : Sample) :
    openRunFlags (acc ++ [s]) =
      if s.pts = s.dts then openRunFlags acc
      else openRunFlags acc ||| kSampleCompTimeOffsetsPresentMask := by
  by_cases h2 : s.pts = s.dts
  · simp [openRunFlags, List.any_append, h2]
  · by_cases h1 : ∃ x ∈ acc, ¬x.pts = x.dts
    · simp [openRunFlags, List.any_append, h1, h2]
      decide
    · simp [openRunFlags, List.any_append, h1, h2]

theorem addSample_openState (preroll : Nat) (useDts : Bool) (acc : List Sample)
    (hacc : acc ≠ []) (s : Sample) :
    Fragmenter.addSample useDts (openState preroll useDts acc) s =
      openState preroll useDts (acc ++ [s]) := by
  have hhead : (acc ++ [s]).headD default = acc.headD default := by
    cases acc with
    | nil => exact absurd rfl hacc
    | cons a l => rfl
  simp only [Fragmenter.addSample, openState, updateRun0, hhead,
    selMin_append, sapFold_append, openRunFlags_append,
    List.map_append, List.sum_append, List.flatten_append, List.map_cons,
    List.map_nil, List.flatten_cons, List.flatten_nil, List.append_nil,
    List.sum_cons, List.sum_nil, add_zero, sampleFlagWord]
  split_ifs <;> simp_all

theorem addSample_mk (preroll : Nat) (useDts : Bool) (s : Sample) :
    Fragmenter.addSample useDts (mkFragmenter preroll) s =
      openState preroll useDts [s] := by
  simp only [Fragmenter.addSample, mkFragmenter, Fragmenter.initFragment,
    updateRun0, openState, selMin, sapFold, openRunFlags, sampleFlagWord,
    List.foldl_cons, List.foldl_nil, List.map_cons, List.map_nil,
    List.any_cons, List.any_nil, List.sum_cons, List.sum_nil, add_zero,
    List.flatten_cons, List.flatten_nil, List.append_nil, List.headD]
  split_ifs <;> simp_all

theorem foldl_addSample_openState (preroll : Nat) (useDts : Bool)
    (ss : List Sample) :
    ∀ acc : List Sample, acc ≠ [] →
      ss.foldl (Fragmenter.addSample useDts) (openState preroll useDts acc) =
        openState preroll useDts (acc ++ ss) := by
  induction ss with
  | nil => intro acc hacc; simp
  | cons s ss ih =>
    intro acc hacc
    rw [List.foldl_cons, addSample_openState preroll useDts acc hacc s,
      ih (acc ++ [s]) (by simp)]
    simp

/-- The builder state on a nonempty sample list is the closed form. -/
theorem buildFragment_eq (preroll : Nat) (useDts : Bool) (s : Sample)
    (ss : List Sample) :
    buildFragment preroll useDts (s :: ss) = openState preroll useDts (s :: ss) := by
  rw [buildFragment, List.foldl_cons, addSample_mk preroll useDts s,
    foldl_addSample_openState preroll useDts ss [s] (by simp)]
  rfl

/-- The fragment state after adding the given samples and finalizing. -/
def finalFragment (preroll : Nat) (useDts : Bool) (samples : List Sample) :
    Fragmenter :=
  (buildFragment preroll useDts samples).finalizeFragment

/-- Attaches sample group descriptions to the bound track fragment, as the
upstream collaborators do between fragment opening and finalization. -/
def attachGroups (f : Fragmenter) (g : List SampleGroupDescription) :
    Fragmenter :=
  { f with traf := { f.traf with sample_group_descriptions := g } }

/-! ## Optimization characterization -/

theorem optimize_cons {α : Type} [DecidableEq α] (x : α) (xs : List α) :
    optimizeSampleEntries (x :: xs) =
      if ∀ y ∈ xs, y = x then some x else none := by
  simp [optimizeSampleEntries, List.all_eq_true]

theorem optimize_map_cons {α β : Type} [DecidableEq β] (g : α → β) (s : α)
    (ss : List α) :
    optimizeSampleEntries (g s :: ss.map g) =
      if ∀ x ∈ ss, g x = g s then some (g s) else none := by
  rw [optimize_cons]
  by_cases h : ∀ x ∈ ss, g x = g s
  · rw [if_pos h, if_pos]
    intro y hy
    obtain ⟨x, hx, rfl⟩ := List.mem_map.mp hy
    exact h x hx
  · rw [if_neg h, if_neg]
    intro hc
    exact h fun x hx => hc (g x) (List.mem_map_of_mem g hx)

theorem optimize_durs_cons (s : Sample) (ss : List Sample) :
    optimizeSampleEntries (s.duration :: ss.map Sample.duration) =
      if ∀ x ∈ ss, x.duration = s.duration then some s.duration else none :=
  optimize_map_cons Sample.duration s ss

theorem optimize_sizes_cons (s : Sample) (ss : List Sample) :
    optimizeSampleEntries
        (s.payload.length :: ss.map fun x => x.payload.length) =
      if ∀ x ∈ ss, x.payload.length = s.payload.length then
        some s.payload.length
      else none :=
  optimize_map_cons (fun x => x.payload.length) s ss

theorem optimize_flags_cons (s : Sample) (ss : List Sample) :
    optimizeSampleEntries (sampleFlagWord s :: ss.map sampleFlagWord) =
      if ∀ x ∈ ss, sampleFlagWord x = sampleFlagWord s then
        some (sampleFlagWord s)
      else none :=
  optimize_map_cons sampleFlagWord s ss

/-! ## Accumulator lemmas -/

theorem sapFold_acc_ne (l : List Sample) (a : Int) (ha : a ≠ kInvalidTime) :
    l.foldl (fun a s => if s.isKeyFrame ∧ a = kInvalidTime then s.pts else a) a
      = a := by
  induction l with
  | nil => rfl
  | cons s l ih => simp [ha, ih]

/-- With no sentinel presentation times, the recorded first SAP time is the
presentation time of the first key frame, or the sentinel if none exists. -/
theorem sapFold_eq_find (l : List Sample)
    (hpts : ∀ x ∈ l, x.pts ≠ kInvalidTime) :
    sapFold l = match l.find? (fun x => x.isKeyFrame) with
                | some k => k.pts
                | none => kInvalidTime := by
  induction l with
  | nil => rfl
  | cons s l ih =>
    by_cases hk : s.isKeyFrame
    · have hs : s.pts ≠ kInvalidTime := hpts s (List.mem_cons_self s l)
      simp only [sapFold, List.foldl_cons]
      rw [if_pos (by simp [hk]), sapFold_acc_ne l s.pts hs,
        List.find?_cons_of_pos _ hk]
    · simp only [sapFold, List.foldl_cons]
      rw [if_neg (by simp [hk]),
        List.find?_cons_of_neg _ (by simp [hk])]
      exact ih fun x hx => hpts x (List.mem_cons_of_mem s hx)

theorem selMin_fold_le (useDts : Bool) (l : List Sample) :
    ∀ a : Int,
      (l.foldl (fun a s => if selTs useDts s < a then selTs useDts s else a) a ≤ a)
      ∧ ∀ x ∈ l,
          l.foldl (fun a s => if selTs useDts s < a then selTs useDts s else a) a
            ≤ selTs useDts x := by
  induction l with
  | nil => intro a; simp
  | cons s l ih =>
    intro a
    have hstep : (if selTs useDts s < a then selTs useDts s else a) ≤ a ∧
        (if selTs useDts s < a then selTs useDts s else a) ≤ selTs useDts s := by
      split_ifs with h <;> omega
    obtain ⟨h1, h2⟩ := ih (if selTs useDts s < a then selTs useDts s else a)
    refine ⟨le_trans h1 hstep.1, ?_⟩
    intro x hx
    rcases List.mem_cons.mp hx with rfl | hx
    · exact le_trans h1 hstep.2
    · exact h2 x hx

theorem selMin_fold_mem (useDts : Bool) (l : List Sample) :
    ∀ a : Int,
      l.foldl (fun a s => if selTs useDts s < a then selTs useDts s else a) a
        ∈ a :: l.map (selTs useDts) := by
  induction l with
  | nil => intro a; simp
  | cons s l ih =>
    intro a
    have := ih (if selTs useDts s < a then selTs useDts s else a)
    rcases List.mem_cons.mp this with h | h
    · rw [List.foldl_cons, h]
      split_ifs <;> simp
    · rw [List.foldl_cons]
      simp [List.mem_cons.mpr (Or.inr (List.mem_cons.mpr (Or.inr h)))]

/-- Within 64-bit range, the earliest-presentation-time fold attains the
minimum selected timestamp of a nonempty sample list. -/
theorem selMin_spec (useDts : Bool) (s : Sample) (ss : List Sample)
    (hb : ∀ x ∈ s :: ss, selTs useDts x ≤ kInvalidTime) :
    selMin useDts (s :: ss) ∈ (s :: ss).map (selTs useDts) ∧
      ∀ x ∈ s :: ss, selMin useDts (s :: ss) ≤ selTs useDts x := by
  have hle := selMin_fold_le useDts (s :: ss) kInvalidTime
  have hmem := selMin_fold_mem useDts (s :: ss) kInvalidTime
  refine ⟨?_, hle.2⟩
  rcases List.mem_cons.mp hmem with h | h
  · have h1 : selMin useDts (s :: ss) ≤ selTs useDts s :=
      hle.2 s (List.mem_cons_self s ss)
    have h2 : selTs useDts s ≤ kInvalidTime := hb s (List.mem_cons_self s ss)
    have h3 : selMin useDts (s :: ss) = kInvalidTime := h
    have : selMin useDts (s :: ss) = selTs useDts s := by omega
    rw [this]
    exact List.mem_map_of_mem _ (List.mem_cons_self s ss)
  · exact h

/-! ## Finalization lemmas -/

/-- Finalization does not modify the time accumulators or the seek preroll. -/
theorem finalize_preserves (f : Fragmenter) :
    f.finalizeFragment.earliest_presentation_time =
        f.earliest_presentation_time ∧
      f.finalizeFragment.first_sap_time = f.first_sap_time ∧
      f.finalizeFragment.fragment_duration = f.fragment_duration ∧
      f.finalizeFragment.seekPreroll = f.seekPreroll := by
  unfold Fragmenter.finalizeFragment
  cases f.traf.runs <;> simp

/-- A set bit survives any further bitwise or. -/
theorem or_keeps_bit (a b m : Nat) (h : a &&& m ≠ 0) : (a ||| b) &&& m ≠ 0 := by
  obtain ⟨i, hi⟩ := Nat.ne_zero_implies_bit_true h
  rw [Nat.testBit_land] at hi
  intro hz
  have : ((a ||| b) &&& m).testBit i = false := by rw [hz]; simp
  rw [Nat.testBit_land, Nat.testBit_lor] at this
  simp only [Bool.and_eq_true, Bool.or_eq_true] at hi
  simp [hi.1, hi.2] at this

theorem openRunFlags_cases (samples : List Sample) :
    openRunFlags samples = kDataOffsetPresentMask ∨
      openRunFlags samples =
        kDataOffsetPresentMask ||| kSampleCompTimeOffsetsPresentMask := by
  unfold openRunFlags
  split_ifs <;> simp

theorem finalize_sample_count (preroll : Nat) (useDts : Bool) (s : Sample)
    (ss : List Sample) (g : List SampleGroupDescription) :
    (run0 (attachGroups (openState preroll useDts (s :: ss)) g).finalizeFragment).sample_count
      = (s :: ss).length := by
  simp only [attachGroups, Fragmenter.finalizeFragment, openState, List.map_cons]
  simp only [optimize_map_cons]
  split <;> split <;> split <;> simp [run0]

theorem finalize_durations_uniform (preroll : Nat) (useDts : Bool) (s : Sample)
    (ss : List Sample) (g : List SampleGroupDescription)
    (h : ∀ x ∈ ss, x.duration = s.duration) :
    (attachGroups (openState preroll useDts (s :: ss)) g).finalizeFragment.traf.header.default_sample_duration
        = s.duration ∧
      (attachGroups (openState preroll useDts (s :: ss)) g).finalizeFragment.traf.header.flags
          &&& kDefaultSampleDurationPresentMask ≠ 0 ∧
      (run0 (attachGroups (openState preroll useDts (s :: ss)) g).finalizeFragment).flags
          &&& kSampleDurationPresentMask = 0 ∧
      (run0 (attachGroups (openState preroll useDts (s :: ss)) g).finalizeFragment).sample_durations
        = [] := by
  simp only [attachGroups, Fragmenter.finalizeFragment, openState, List.map_cons]
  simp only [optimize_durs_cons]
  by_cases h1 : ∀ x ∈ ss, x.duration = s.duration
  all_goals first | simp only [if_pos h1] | simp only [if_neg h1] | skip
  all_goals try dsimp only
  all_goals try simp only [optimize_sizes_cons]
  all_goals by_cases h2 : ∀ x ∈ ss, x.payload.length = s.payload.length
  all_goals first | simp only [if_pos h2] | simp only [if_neg h2] | skip
  all_goals try dsimp only
  all_goals try simp only [optimize_flags_cons]
  all_goals by_cases h3 : ∀ x ∈ ss, sampleFlagWord x = sampleFlagWord s
  all_goals first | simp only [if_pos h3] | simp only [if_neg h3] | skip
  all_goals try dsimp only
  all_goals rcases openRunFlags_cases (s :: ss) with ho | ho <;>
    simp_all [run0, ho] <;> decide

theorem finalize_durations_explicit (preroll : Nat) (useDts : Bool) (s : Sample)
    (ss : List Sample) (g : List SampleGroupDescription)
    (h : ¬ ∀ x ∈ ss, x.duration = s.duration) :
    (run0 (attachGroups (openState preroll useDts (s :: ss)) g).finalizeFragment).sample_durations
        = (s :: ss).map Sample.duration ∧
      (run0 (attachGroups (openState preroll useDts (s :: ss)) g).finalizeFragment).flags
          &&& kSampleDurationPresentMask ≠ 0 := by
  simp only [attachGroups, Fragmenter.finalizeFragment, openState, List.map_cons]
  simp only [optimize_durs_cons]
  by_cases h1 : ∀ x ∈ ss, x.duration = s.duration
  all_goals first | simp only [if_pos h1] | simp only [if_neg h1] | skip
  all_goals try dsimp only
  all_goals try simp only [optimize_sizes_cons]
  all_goals by_cases h2 : ∀ x ∈ ss, x.payload.length = s.payload.length
  all_goals first | simp only [if_pos h2] | simp only [if_neg h2] | skip
  all_goals try dsimp only
  all_goals try simp only [optimize_flags_cons]
  all_goals by_cases h3 : ∀ x ∈ ss, sampleFlagWord x = sampleFlagWord s
  all_goals first | simp only [if_pos h3] | simp only [if_neg h3] | skip
  all_goals try dsimp only
  all_goals rcases openRunFlags_cases (s :: ss) with ho | ho <;>
    simp_all [run0, ho] <;> decide

theorem finalize_sizes_uniform (preroll : Nat) (useDts : Bool) (s : Sample)
    (ss : List Sample) (g : List SampleGroupDescription)
    (h : ∀ x ∈ ss, x.payload.length = s.payload.length) :
    (attachGroups (openState preroll useDts (s :: ss)) g).finalizeFragment.traf.header.default_sample_size
        = s.payload.length ∧
      (attachGroups (openState preroll useDts (s :: ss)) g).finalizeFragment.traf.header.flags
          &&& kDefaultSampleSizePresentMask ≠ 0 ∧
      (run0 (attachGroups (openState preroll useDts (s :: ss)) g).finalizeFragment).flags
          &&& kSampleSizePresentMask = 0 ∧
      (run0 (attachGroups (openState preroll useDts (s :: ss)) g).finalizeFragment).sample_sizes
        = [] := by
  simp only [attachGroups, Fragmenter.finalizeFragment, openState, List.map_cons]
  simp only [optimize_durs_cons]
  by_cases h1 : ∀ x ∈ ss, x.duration = s.duration
  all_goals first | simp only [if_pos h1] | simp only [if_neg h1] | skip
  all_goals try dsimp only
  all_goals try simp only [optimize_sizes_cons]
  all_goals by_cases h2 : ∀ x ∈ ss, x.payload.length = s.payload.length
  all_goals first | simp only [if_pos h2] | simp only [if_neg h2] | skip
  all_goals try dsimp only
  all_goals try simp only [optimize_flags_cons]
  all_goals by_cases h3 : ∀ x ∈ ss, sampleFlagWord x = sampleFlagWord s
  all_goals first | simp only [if_pos h3] | simp only [if_neg h3] | skip
  all_goals try dsimp only
  all_goals rcases openRunFlags_cases (s :: ss) with ho | ho <;>
    simp_all [run0, ho] <;> decide

theorem finalize_sizes_explicit (preroll : Nat) (useDts : Bool) (s : Sample)
    (ss : List Sample) (g : List SampleGroupDescription)
    (h : ¬ ∀ x ∈ ss, x.payload.length = s.payload.length) :
    (run0 (attachGroups (openState preroll useDts (s :: ss)) g).finalizeFragment).sample_sizes
        = (s :: ss).map (fun x => x.payload.length) ∧
      (run0 (attachGroups (openState preroll useDts (s :: ss)) g).finalizeFragment).flags
          &&& kSampleSizePresentMask ≠ 0 := by
  simp only [attachGroups, Fragmenter.finalizeFragment, openState, List.map_cons]
  simp only [optimize_durs_cons]
  by_cases h1 : ∀ x ∈ ss, x.duration = s.duration
  all_goals first | simp only [if_pos h1] | simp only [if_neg h1] | skip
  all_goals try dsimp only
  all_goals try simp only [optimize_sizes_cons]
  all_goals by_cases h2 : ∀ x ∈ ss, x.payload.length = s.payload.length
  all_goals first | simp only [if_pos h2] | simp only [if_neg h2] | skip
  all_goals try dsimp only
  all_goals try simp only [optimize_flags_cons]
  all_goals by_cases h3 : ∀ x ∈ ss, sampleFlagWord x = sampleFlagWord s
  all_goals first | simp only [if_pos h3] | simp only [if_neg h3] | skip
  all_goals try dsimp only
  all_goals rcases openRunFlags_cases (s :: ss) with ho | ho <;>
    simp_all [run0, ho] <;> decide

theorem finalize_flags_uniform (preroll : Nat) (useDts : Bool) (s : Sample)
    (ss : List Sample) (g : List SampleGroupDescription)
    (h : ∀ x ∈ ss, sampleFlagWord x = sampleFlagWord s) :
    (attachGroups (openState preroll useDts (s :: ss)) g).finalizeFragment.traf.header.default_sample_flags
        = sampleFlagWord s ∧
      (attachGroups (openState preroll useDts (s :: ss)) g).finalizeFragment.traf.header.flags
          &&& kDefaultSampleFlagsPresentMask ≠ 0 ∧
      (run0 (attachGroups (openState preroll useDts (s :: ss)) g).finalizeFragment).flags
          &&& kSampleFlagsPresentMask = 0 ∧
      (run0 (attachGroups (openState preroll useDts (s :: ss)) g).finalizeFragment).sample_flags
        = [] := by
  simp only [attachGroups, Fragmenter.finalizeFragment, openState, List.map_cons]
  simp only [optimize_durs_cons]
  by_cases h1 : ∀ x ∈ ss, x.duration = s.duration
  all_goals first | simp only [if_pos h1] | simp only [if_neg h1] | skip
  all_goals try dsimp only
  all_goals try simp only [optimize_sizes_cons]
  all_goals by_cases h2 : ∀ x ∈ ss, x.payload.length = s.payload.length
  all_goals first | simp only [if_pos h2] | simp only [if_neg h2] | skip
  all_goals try dsimp only
  all_goals try simp only [optimize_flags_cons]
  all_goals by_cases h3 : ∀ x ∈ ss, sampleFlagWord x = sampleFlagWord s
  all_goals first | simp only [if_pos h3] | simp only [if_neg h3] | skip
  all_goals try dsimp only
  all_goals rcases openRunFlags_cases (s :: ss) with ho | ho <;>
    simp_all [run0, ho] <;> decide

theorem finalize_flags_explicit (preroll : Nat) (useDts : Bool) (s : Sample)
    (ss : List Sample) (g : List SampleGroupDescription)
    (h : ¬ ∀ x ∈ ss, sampleFlagWord x = sampleFlagWord s) :
    (run0 (attachGroups (openState preroll useDts (s :: ss)) g).finalizeFragment).sample_flags
        = (s :: ss).map sampleFlagWord ∧
      (run0 (attachGroups (openState preroll useDts (s :: ss)) g).finalizeFragment).flags
          &&& kSampleFlagsPresentMask ≠ 0 := by
  simp only [attachGroups, Fragmenter.finalizeFragment, openState, List.map_cons]
  simp only [optimize_durs_cons]
  by_cases h1 : ∀ x ∈ ss, x.duration = s.duration
  all_goals first | simp only [if_pos h1] | simp only [if_neg h1] | skip
  all_goals try dsimp only
  all_goals try simp only [optimize_sizes_cons]
  all_goals by_cases h2 : ∀ x ∈ ss, x.payload.length = s.payload.length
  all_goals first | simp only [if_pos h2] | simp only [if_neg h2] | skip
  all_goals try dsimp only
  all_goals try simp only [optimize_flags_cons]
  all_goals by_cases h3 : ∀ x ∈ ss, sampleFlagWord x = sampleFlagWord s
  all_goals first | simp only [if_pos h3] | simp only [if_neg h3] | skip
  all_goals try dsimp only
  all_goals rcases openRunFlags_cases (s :: ss) with ho | ho <;>
    simp_all [run0, ho] <;> decide

/-- After finalization the first sample's effective flags word equals the
first added sample's flags word, whether promoted or explicit. -/
theorem finalize_startsWithSAP (preroll : Nat) (useDts : Bool) (s : Sample)
    (ss : List Sample) (g : List SampleGroupDescription) :
    (attachGroups (openState preroll useDts (s :: ss)) g).finalizeFragment.startsWithSAP
      = s.isKeyFrame := by
  by_cases h3 : ∀ x ∈ ss, sampleFlagWord x = sampleFlagWord s
  · obtain ⟨hd, hh, hrun, harr⟩ := finalize_flags_uniform preroll useDts s ss g h3
    simp only [Fragmenter.startsWithSAP]
    rw [if_neg (by simp [hrun]), hd]
    cases hk : s.isKeyFrame <;> simp [sampleFlagWord, hk] <;> decide
  · obtain ⟨harr, hrun⟩ := finalize_flags_explicit preroll useDts s ss g h3
    simp only [Fragmenter.startsWithSAP]
    rw [if_pos hrun, harr]
    simp only [List.map_cons, List.headD_cons]
    cases hk : s.isKeyFrame <;> simp [sampleFlagWord, hk] <;> decide

/-- Sample-to-group boxes written by finalization: one roll box referencing
the track level when the seek preroll is positive, then one box per attached
description referencing the fragment level, each counting every sample. -/
theorem finalize_s2g (preroll : Nat) (useDts : Bool) (s : Sample)
    (ss : List Sample) (g : List SampleGroupDescription) :
    (attachGroups (openState preroll useDts (s :: ss)) g).finalizeFragment.traf.sample_to_groups
      = (if 0 < preroll then
           [{ grouping_type := fourccRoll,
              entries := [{ sample_count := (s :: ss).length,
                            group_description_index :=
                              kTrackGroupDescriptionIndexBase + 1 }] }]
         else []) ++
        g.map (fun d =>
          { grouping_type := d.grouping_type,
            entries := [{ sample_count := (s :: ss).length,
                          group_description_index :=
                            kTrackFragmentGroupDescriptionIndexBase + 1 }] }) := by
  simp only [attachGroups, Fragmenter.finalizeFragment, openState, List.map_cons]
  simp only [optimize_durs_cons]
  by_cases h1 : ∀ x ∈ ss, x.duration = s.duration
  all_goals first | simp only [if_pos h1] | simp only [if_neg h1] | skip
  all_goals try dsimp only
  all_goals try simp only [optimize_sizes_cons]
  all_goals by_cases h2 : ∀ x ∈ ss, x.payload.length = s.payload.length
  all_goals first | simp only [if_pos h2] | simp only [if_neg h2] | skip
  all_goals try dsimp only
  all_goals try simp only [optimize_flags_cons]
  all_goals by_cases h3 : ∀ x ∈ ss, sampleFlagWord x = sampleFlagWord s
  all_goals first | simp only [if_pos h3] | simp only [if_neg h3] | skip
  all_goals try dsimp only
  all_goals simp [List.length_map]

/-- Bridging lemma: the built and finalized fragment is finalization of the
closed-form open state with no attached group descriptions. -/
theorem finalFragment_eq (preroll : Nat) (useDts : Bool) (s : Sample)
    (ss : List Sample) :
    finalFragment preroll useDts (s :: ss) =
      (attachGroups (openState preroll useDts (s :: ss)) []).finalizeFragment := by
  rw [finalFragment, buildFragment_eq]
  rfl

/-- Adding a sample to an open fragment can only lower the earliest
presentation time. -/
theorem addSample_earliest_le (useDts : Bool) (f : Fragmenter) (x : Sample)
    (hinit : f.fragment_initialized = true) :
    (f.addSample useDts x).earliest_presentation_time ≤
      f.earliest_presentation_time := by
  simp only [Fragmenter.addSample, hinit, if_true, updateRun0]
  split_ifs <;> simp_all <;> omega

/-- C3: for every open fragment with at least one sample, finalize sets the
sample count to the run length; per array (durations, sizes, flags)
independently, a uniform array is promoted to the header default with the
run presence flag left clear, while a non-uniform array is retained
explicitly with the run presence flag set. -/
theorem c3_finalize_run_optimization (preroll : Nat) (useDts : Bool)
    (s : Sample) (ss : List Sample) :
    (run0 (finalFragment preroll useDts (s :: ss))).sample_count
        = (s :: ss).length ∧
    ((∀ x ∈ ss, x.duration = s.duration) →
      (finalFragment preroll useDts (s :: ss)).traf.header.default_sample_duration
          = s.duration ∧
        (run0 (finalFragment preroll useDts (s :: ss))).flags
            &&& kSampleDurationPresentMask = 0) ∧
    ((¬ ∀ x ∈ ss, x.duration = s.duration) →
      (run0 (finalFragment preroll useDts (s :: ss))).sample_durations
          = (s :: ss).map Sample.duration ∧
        (run0 (finalFragment preroll useDts (s :: ss))).flags
            &&& kSampleDurationPresentMask ≠ 0) ∧
    ((∀ x ∈ ss, x.payload.length = s.payload.length) →
      (finalFragment preroll useDts (s :: ss)).traf.header.default_sample_size
          = s.payload.length ∧
        (run0 (finalFragment preroll useDts (s :: ss))).flags
            &&& kSampleSizePresentMask = 0) ∧
    ((¬ ∀ x ∈ ss, x.payload.length = s.payload.length) →
      (run0 (finalFragment preroll useDts (s :: ss))).sample_sizes
          = (s :: ss).map (fun x => x.payload.length) ∧
        (run0 (finalFragment preroll useDts (s :: ss))).flags
            &&& kSampleSizePresentMask ≠ 0) ∧
    ((∀ x ∈ ss, sampleFlagWord x = sampleFlagWord s) →
      (finalFragment preroll useDts (s :: ss)).traf.header.default_sample_flags
          = sampleFlagWord s ∧
        (run0 (finalFragment preroll useDts (s :: ss))).flags
            &&& kSampleFlagsPresentMask = 0) ∧
    ((¬ ∀ x ∈ ss, sampleFlagWord x = sampleFlagWord s) →
      (run0 (finalFragment preroll useDts (s :: ss))).sample_flags
          = (s :: ss).map sampleFlagWord ∧
        (run0 (finalFragment preroll useDts (s :: ss))).flags
            &&& kSampleFlagsPresentMask ≠ 0) := by
  rw [finalFragment_eq]
  refine ⟨finalize_sample_count preroll useDts s ss [], ?_, ?_, ?_, ?_, ?_, ?_⟩
  · intro h
    obtain ⟨h1, h2, h3, h4⟩ := finalize_durations_uniform preroll useDts s ss [] h
    exact ⟨h1, h3⟩
  · intro h
    exact finalize_durations_explicit preroll useDts s ss [] h
  · intro h
    obtain ⟨h1, h2, h3, h4⟩ := finalize_sizes_uniform preroll useDts s ss [] h
    exact ⟨h1, h3⟩
  · intro h
    exact finalize_sizes_explicit preroll useDts s ss [] h
  · intro h
    obtain ⟨h1, h2, h3, h4⟩ := finalize_flags_uniform preroll useDts s ss [] h
    exact ⟨h1, h3⟩
  · intro h
    exact finalize_flags_explicit preroll useDts s ss [] h

/-- Witness for C3 at concrete inputs: two samples with equal durations but
distinct sizes and key-frame flags. -/
theorem c3_witness :
    (run0 (finalFragment 0 false
        [⟨0, 0, 10, true, [1, 2]⟩, ⟨10, 10, 10, false, [3]⟩])).sample_count = 2 ∧
    (finalFragment 0 false
        [⟨0, 0, 10, true, [1, 2]⟩, ⟨10, 10, 10, false, [3]⟩]).traf.header.default_sample_duration
      = 10 ∧
    (run0 (finalFragment 0 false
        [⟨0, 0, 10, true, [1, 2]⟩, ⟨10, 10, 10, false, [3]⟩])).flags
        &&& kSampleDurationPresentMask = 0 ∧
    (run0 (finalFragment 0 false
        [⟨0, 0, 10, true, [1, 2]⟩, ⟨10, 10, 10, false, [3]⟩])).sample_sizes
      = [2, 1] ∧
    (run0 (finalFragment 0 false
        [⟨0, 0, 10, true, [1, 2]⟩, ⟨10, 10, 10, false, [3]⟩])).flags
        &&& kSampleSizePresentMask ≠ 0 := by
  have h := c3_finalize_run_optimization 0 false
    (⟨0, 0, 10, true, [1, 2]⟩ : Sample) [⟨10, 10, 10, false, [3]⟩]
  obtain ⟨ha, hb, hc, hd, he, hf, hg⟩ := h
  refine ⟨ha, (hb (by decide)).1, (hb (by decide)).2, ?_, (he (by decide)).2⟩
  rw [(he (by decide)).1]
  decide

/-- C5: from initialization on, the earliest presentation time is the
minimum selected timestamp (presentation or decode per the configured mode)
over the added samples; each add can only lower it; before any sample it is
the unset sentinel. -/
theorem c5_earliest_presentation_time (preroll : Nat) (useDts : Bool)
    (s : Sample) (ss : List Sample)
    (hb : ∀ x ∈ s :: ss, selTs useDts x ≤ kInvalidTime)
    (f : Fragmenter) (x : Sample) (hinit : f.fragment_initialized = true)
    (d : Int) :
    ((buildFragment preroll useDts (s :: ss)).earliest_presentation_time
        ∈ (s :: ss).map (selTs useDts) ∧
      ∀ y ∈ s :: ss,
        (buildFragment preroll useDts (s :: ss)).earliest_presentation_time
          ≤ selTs useDts y) ∧
    (f.addSample useDts x).earliest_presentation_time ≤
        f.earliest_presentation_time ∧
    (mkFragmenter preroll).earliest_presentation_time = kInvalidTime ∧
    (f.initFragment d).earliest_presentation_time = kInvalidTime := by
  refine ⟨?_, addSample_earliest_le useDts f x hinit, rfl, rfl⟩
  rw [buildFragment_eq]
  exact selMin_spec useDts s ss hb

/-- Witness for C5 at concrete inputs. -/
theorem c5_witness :
    ((buildFragment 0 false
          [(⟨7, 7, 10, true, []⟩ : Sample), ⟨3, 3, 10, false, []⟩]).earliest_presentation_time
        ∈ [(7 : Int), 3] ∧
      (buildFragment 0 false
          [(⟨7, 7, 10, true, []⟩ : Sample), ⟨3, 3, 10, false, []⟩]).earliest_presentation_time
        ≤ 3) ∧
    ((buildFragment 0 false
        [(⟨7, 7, 10, true, []⟩ : Sample)]).addSample false
          ⟨3, 3, 10, false, []⟩).earliest_presentation_time ≤
      (buildFragment 0 false
        [(⟨7, 7, 10, true, []⟩ : Sample)]).earliest_presentation_time := by
  have h := c5_earliest_presentation_time 0 false
    (⟨7, 7, 10, true, []⟩ : Sample) [⟨3, 3, 10, false, []⟩] (by decide)
    (buildFragment 0 false [⟨7, 7, 10, true, []⟩]) ⟨3, 3, 10, false, []⟩
    (by decide) 0
  refine ⟨⟨h.1.1, h.1.2 ⟨3, 3, 10, false, []⟩ (by decide)⟩, h.2.1⟩

/-- The recorded first SAP time of a built fragment is the sapFold value. -/
theorem finalFragment_first_sap (preroll : Nat) (useDts : Bool) (s : Sample)
    (ss : List Sample) :
    (finalFragment preroll useDts (s :: ss)).first_sap_time
      = sapFold (s :: ss) := by
  rw [finalFragment_eq]
  rw [(finalize_preserves (attachGroups (openState preroll useDts (s :: ss)) [])).2.1]
  rfl

/-- C2 counterexample: a fragment whose single sample is a key frame with
presentation time equal to the maximum-int64 sentinel is classified
TypeUnknown although a key frame was added, because the recorded first SAP
time is indistinguishable from the unset sentinel. -/
theorem c2_counterexample :
    (∃ x ∈ [(⟨kInvalidTime, 0, 10, true, []⟩ : Sample)], x.isKeyFrame = true) ∧
    (finalFragment 0 false
        [⟨kInvalidTime, 0, 10, true, []⟩]).generateSegmentReference.sap_type
      = SapType.typeUnknown ∧
    (finalFragment 0 false
        [⟨kInvalidTime, 0, 10, true, []⟩]).generateSegmentReference.sap_type
      ≠ SapType.type1 := by decide

/-- C2 (amended): for a finalized nonempty fragment whose samples all have
non-sentinel presentation times, starts_with_sap holds exactly when the
first sample is a key frame; with a key frame present the SAP type is Type1
and the SAP delta is the first key frame presentation time minus the
earliest presentation time, and with no key frame the type is Unknown with
delta 0. -/
theorem c2_segment_reference_sap (preroll : Nat) (useDts : Bool) (s : Sample)
    (ss : List Sample) (hpts : ∀ x ∈ s :: ss, x.pts ≠ kInvalidTime) :
    (finalFragment preroll useDts (s :: ss)).generateSegmentReference.starts_with_sap
        = s.isKeyFrame ∧
    (∀ k, (s :: ss).find? (fun x => x.isKeyFrame) = some k →
      (finalFragment preroll useDts (s :: ss)).generateSegmentReference.sap_type
          = SapType.type1 ∧
        (finalFragment preroll useDts (s :: ss)).generateSegmentReference.sap_delta_time
          = k.pts -
            (finalFragment preroll useDts (s :: ss)).earliest_presentation_time) ∧
    ((s :: ss).find? (fun x => x.isKeyFrame) = none →
      (finalFragment preroll useDts (s :: ss)).generateSegmentReference.sap_type
          = SapType.typeUnknown ∧
        (finalFragment preroll useDts (s :: ss)).generateSegmentReference.sap_delta_time
          = 0) := by
  have hsap : (finalFragment preroll useDts (s :: ss)).first_sap_time
      = sapFold (s :: ss) := finalFragment_first_sap preroll useDts s ss
  have hfind := sapFold_eq_find (s :: ss) hpts
  refine ⟨?_, ?_, ?_⟩
  · show (finalFragment preroll useDts (s :: ss)).startsWithSAP = s.isKeyFrame
    rw [finalFragment_eq]
    exact finalize_startsWithSAP preroll useDts s ss []
  · intro k hk
    have hkp : k.pts ≠ kInvalidTime := hpts k (List.mem_of_find?_eq_some hk)
    have hv : (finalFragment preroll useDts (s :: ss)).first_sap_time = k.pts := by
      rw [hsap, hfind, hk]
    simp only [Fragmenter.generateSegmentReference, hv]
    rw [if_neg hkp, if_neg hkp]
    exact ⟨rfl, rfl⟩
  · intro hk
    have hv : (finalFragment preroll useDts (s :: ss)).first_sap_time
        = kInvalidTime := by rw [hsap, hfind, hk]
    simp only [Fragmenter.generateSegmentReference, hv]
    simp

/-- Witness for C2: a key-frame-first fragment with ordinary timestamps. -/
theorem c2_witness :
    (finalFragment 0 false
        [(⟨0, 0, 10, true, []⟩ : Sample),
         ⟨10, 20, 10, false, []⟩]).generateSegmentReference.starts_with_sap
      = true ∧
    (finalFragment 0 false
        [(⟨0, 0, 10, true, []⟩ : Sample),
         ⟨10, 20, 10, false, []⟩]).generateSegmentReference.sap_type
      = SapType.type1 ∧
    (finalFragment 0 false
        [(⟨0, 0, 10, true, []⟩ : Sample),
         ⟨10, 20, 10, false, []⟩]).generateSegmentReference.sap_delta_time
      = 0 -
        (finalFragment 0 false
          [(⟨0, 0, 10, true, []⟩ : Sample),
           ⟨10, 20, 10, false, []⟩]).earliest_presentation_time := by
  have h := c2_segment_reference_sap 0 false (⟨0, 0, 10, true, []⟩ : Sample)
    [⟨10, 20, 10, false, []⟩] (by decide)
  have hk := h.2.1 ⟨0, 0, 10, true, []⟩ (by decide)
  exact ⟨h.1, hk.1, hk.2⟩

/-- C6: after finalize with positive configured seek preroll, the
sample-to-group boxes are exactly one roll box referencing the track-level
description index followed by one box per attached sample group description
referencing the fragment-level index; exactly one box is roll-typed with a
track-level reference, and every entry counts all samples of the run. -/
theorem c6_sample_to_group (preroll : Nat) (useDts : Bool) (s : Sample)
    (ss : List Sample) (g : List SampleGroupDescription) (hpre : 0 < preroll) :
    (attachGroups (buildFragment preroll useDts (s :: ss)) g).finalizeFragment.traf.sample_to_groups
        = { grouping_type := fourccRoll,
            entries := [{ sample_count := (s :: ss).length,
                          group_description_index :=
                            kTrackGroupDescriptionIndexBase + 1 }] }
          :: g.map (fun d =>
              { grouping_type := d.grouping_type,
                entries := [{ sample_count := (s :: ss).length,
                              group_description_index :=
                                kTrackFragmentGroupDescriptionIndexBase + 1 }] }) ∧
    ((attachGroups (buildFragment preroll useDts (s :: ss)) g).finalizeFragment.traf.sample_to_groups.countP
        (fun b => decide (b.grouping_type = fourccRoll ∧
          b.entries.any fun e =>
            e.group_description_index = kTrackGroupDescriptionIndexBase + 1)))
      = 1 ∧
    (∀ b ∈ (attachGroups (buildFragment preroll useDts (s :: ss)) g).finalizeFragment.traf.sample_to_groups,
      ∀ e ∈ b.entries, e.sample_count = (s :: ss).length) ∧
    (run0 (attachGroups (buildFragment preroll useDts (s :: ss)) g).finalizeFragment).sample_count
      = (s :: ss).length := by
  rw [buildFragment_eq]
  have hs2g := finalize_s2g preroll useDts s ss g
  rw [if_pos hpre] at hs2g
  rw [hs2g]
  refine ⟨by simp, ?_, ?_, finalize_sample_count preroll useDts s ss g⟩
  · rw [List.singleton_append, List.countP_cons]
    have h0 : (g.map (fun d =>
        ({ grouping_type := d.grouping_type,
           entries := [{ sample_count := (s :: ss).length,
                         group_description_index :=
                           kTrackFragmentGroupDescriptionIndexBase + 1 }] }
          : SampleToGroup))).countP
        (fun b => decide (b.grouping_type = fourccRoll ∧
          b.entries.any fun e =>
            e.group_description_index = kTrackGroupDescriptionIndexBase + 1))
        = 0 := by
      rw [List.countP_eq_zero]
      intro b hb
      obtain ⟨d, hd, rfl⟩ := List.mem_map.mp hb
      simp [kTrackGroupDescriptionIndexBase,
        kTrackFragmentGroupDescriptionIndexBase]
    rw [h0]
    simp [fourccRoll, kTrackGroupDescriptionIndexBase]
  · intro b hb e he
    rcases List.mem_cons.mp hb with rfl | hb
    · simp at he
      simp [he]
    · obtain ⟨d, hd, rfl⟩ := List.mem_map.mp hb
      simp at he
      simp [he]

/-- Witness for C6 at concrete inputs. -/
theorem c6_witness :
    (attachGroups (buildFragment 5 false
        [(⟨0, 0, 10, true, []⟩ : Sample)]) [⟨77⟩]).finalizeFragment.traf.sample_to_groups
        = [{ grouping_type := fourccRoll,
             entries := [{ sample_count := 1,
                           group_description_index :=
                             kTrackGroupDescriptionIndexBase + 1 }] },
           { grouping_type := 77,
             entries := [{ sample_count := 1,
                           group_description_index :=
                             kTrackFragmentGroupDescriptionIndexBase + 1 }] }] ∧
    0 < 5 := by
  have h := c6_sample_to_group 5 false (⟨0, 0, 10, true, []⟩ : Sample) []
    [⟨77⟩] (by decide)
  exact ⟨by rw [h.1]; decide, by decide⟩

/-- The single-run invariant maintained by the builder: the track fragment
holds exactly one run and its flags word has the data-offset bit set. -/
def singleRunInv (f : Fragmenter) : Prop :=
  f.traf.runs.length = 1 ∧ (run0 f).flags &&& kDataOffsetPresentMask ≠ 0

/-- C9: initialization establishes the single-run invariant with the
data-offset bit, and both add_sample and finalize preserve it, never adding
or removing runs. -/
theorem c9_single_run (preroll : Nat) (useDts : Bool) (f : Fragmenter)
    (d : Int) (x : Sample) :
    singleRunInv (f.initFragment d) ∧
    (singleRunInv f → singleRunInv (f.addSample useDts x)) ∧
    (singleRunInv f → singleRunInv f.finalizeFragment) := by
  refine ⟨?_, ?_, ?_⟩
  · constructor
    · rfl
    · simp [run0, Fragmenter.initFragment]
      decide
  · rintro ⟨hlen, hbit⟩
    by_cases hi : f.fragment_initialized
    · obtain ⟨r, hr⟩ := List.length_eq_one.mp hlen
      have hr0 : run0 f = r := by simp [run0, hr]
      rw [hr0] at hbit
      simp only [Fragmenter.addSample, hi, if_true, updateRun0, hr]
      split_ifs <;>
        simp_all [singleRunInv, run0, updateRun0] <;>
          repeat (first | assumption | apply or_keeps_bit)
    · simp only [Fragmenter.addSample, hi, Bool.false_eq_true, if_false,
        Fragmenter.initFragment, updateRun0]
      split_ifs <;> simp_all [singleRunInv, run0] <;> decide
  · rintro ⟨hlen, hbit⟩
    obtain ⟨r, hr⟩ := List.length_eq_one.mp hlen
    have hr0 : run0 f = r := by simp [run0, hr]
    rw [hr0] at hbit
    unfold Fragmenter.finalizeFragment
    rw [hr]
    dsimp only
    repeat' split
    all_goals simp_all [singleRunInv, run0]
    all_goals repeat (first | assumption | apply or_keeps_bit)

/-- Witness for C9 at concrete inputs. -/
theorem c9_witness :
    singleRunInv ((mkFragmenter 0).initFragment 5) ∧
    (singleRunInv (buildFragment 0 false [(⟨0, 0, 10, true, []⟩ : Sample)]) →
      singleRunInv ((buildFragment 0 false
        [(⟨0, 0, 10, true, []⟩ : Sample)]).addSample false
          ⟨10, 10, 10, false, []⟩)) ∧
    singleRunInv (buildFragment 0 false [(⟨0, 0, 10, true, []⟩ : Sample)]) := by
  have h := c9_single_run 0 false (mkFragmenter 0) 5 (⟨10, 10, 10, false, []⟩ : Sample)
  have h2 := c9_single_run 0 false
    (buildFragment 0 false [(⟨0, 0, 10, true, []⟩ : Sample)]) 5
    (⟨10, 10, 10, false, []⟩ : Sample)
  exact ⟨h.1, h2.2.1, by constructor <;> decide⟩

/-! ## Parser claims -/

/-- Every hexadecimal digit drawn below index 16 is a lowercase hex digit. -/
theorem hexDigit_mem (n : Nat) (h : n < 16) : hexDigits.getD n '0' ∈ hexDigits := by
  interval_cases n <;> decide

/-- C8: codec-string formatting is a pure function of the container tag and
the three byte values, producing the tag, a dot, and exactly six lowercase
hexadecimal digits; on the avc1/0x64/0x00/0x1f input it yields
"avc1.64001f". -/
theorem c8_codec_string :
    getCodecString "avc1" 0x64 0x00 0x1f = "avc1.64001f" ∧
    ∀ (tag : String) (p c l : Nat), ∃ hx : String,
      getCodecString tag p c l = tag ++ "." ++ hx ∧
      hx.toList.length = 6 ∧
      ∀ ch ∈ hx.toList, ch ∈ hexDigits := by
  refine ⟨by decide, ?_⟩
  intro tag p c l
  refine ⟨byteToLowerHex p ++ byteToLowerHex c ++ byteToLowerHex l, ?_, ?_, ?_⟩
  · simp [getCodecString, String.append_assoc]
  · simp [byteToLowerHex, String.toList]
  · intro ch hch
    have hb : ∀ b : Nat, ch ∈ (byteToLowerHex b).toList → ch ∈ hexDigits := by
      intro b hmem
      simp [byteToLowerHex, String.toList] at hmem
      rcases hmem with h | h <;> rw [h, ← List.getD_eq_getElem?_getD]
      · exact hexDigit_mem (b % 256 / 16) (by omega)
      · exact hexDigit_mem (b % 16) (by omega)
    simp only [String.toList] at hch hb
    rw [show (byteToLowerHex p ++ byteToLowerHex c ++ byteToLowerHex l).data
        = (byteToLowerHex p).data ++ (byteToLowerHex c).data ++
          (byteToLowerHex l).data by simp] at hch
    simp only [List.mem_append] at hch
    rcases hch with (h | h) | h
    · exact hb p h
    · exact hb c h
    · exact hb l h

/-- C1 counterexample: on the one-byte input 2 the parse fails with the
record's version field left written to 2, so the record object's observable
state differs from its pre-parse state. -/
theorem c1_counterexample :
    (parseInternal noNalu noTc noRes [2] defaultRecord).1 = false ∧
    (parseInternal noNalu noTc noRes [2] defaultRecord).2 ≠ defaultRecord ∧
    (parseInternal noNalu noTc noRes [2] defaultRecord).2.version = 2 := by
  decide

/-- C1 (amended): on every failing input no record value is exposed through
the parse interface (the Option-result of the public parse is none, and on
success it is exactly the populated record); the underlying record object
itself may retain partially written fields. -/
theorem c1_parse_interface (nal : NaluOracle) (tc : SpsTcOracle)
    (res : SpsResOracle) (input : List Nat) :
    ((parseInternal nal tc res input defaultRecord).1 = false →
      parseRecord nal tc res input = none) ∧
    ((parseInternal nal tc res input defaultRecord).1 = true →
      parseRecord nal tc res input
        = some (parseInternal nal tc res input defaultRecord).2) := by
  unfold parseRecord
  constructor <;> intro h <;> simp [h]

/-- Witness for C1 at a concrete failing input. -/
theorem c1_witness :
    (parseInternal noNalu noTc noRes [] defaultRecord).1 = false ∧
    parseRecord noNalu noTc noRes [] = none :=
  ⟨by decide, (c1_parse_interface noNalu noTc noRes []).1 (by decide)⟩

/-- A successful one-byte read advances the cursor by one within bounds. -/
theorem read1_ok (r : Reader) (b : Nat) (r' : Reader)
    (h : r.read1 = some (b, r')) :
    r'.data = r.data ∧ r'.pos = r.pos + 1 ∧ r.pos + 1 ≤ r.data.length := by
  unfold Reader.read1 at h
  split_ifs at h with hb
  simp only [Option.some.injEq, Prod.mk.injEq] at h
  obtain ⟨h1, h2⟩ := h
  subst h2
  exact ⟨rfl, rfl, hb⟩

/-- A successful header stage consumes exactly the 4 header bytes. -/
theorem headerStage_ok_pos (rd rd' : Reader) (st st' : RecordState)
    (h : headerStage rd st = .ok (rd', st')) :
    rd'.data = rd.data ∧ rd'.pos = rd.pos + 4 ∧ rd.pos + 4 ≤ rd.data.length := by
  unfold headerStage at h
  cases h1 : rd.read1 with
  | none => rw [h1] at h; exact absurd h (by simp)
  | some p1 =>
    obtain ⟨v, rdA⟩ := p1
    obtain ⟨hdA, hpA, hbA⟩ := read1_ok rd v rdA h1
    rw [h1] at h
    dsimp only at h
    split_ifs at h
    cases h2 : rdA.read1 with
    | none => rw [h2] at h; exact absurd h (by simp)
    | some p2 =>
      obtain ⟨pi, rdB⟩ := p2
      obtain ⟨hdB, hpB, hbB⟩ := read1_ok rdA pi rdB h2
      rw [h2] at h
      dsimp only at h
      cases h3 : rdB.read1 with
      | none => rw [h3] at h; exact absurd h (by simp)
      | some p3 =>
        obtain ⟨pc, rdC⟩ := p3
        obtain ⟨hdC, hpC, hbC⟩ := read1_ok rdB pc rdC h3
        rw [h3] at h
        dsimp only at h
        cases h4 : rdC.read1 with
        | none => rw [h4] at h; exact absurd h (by simp)
        | some p4 =>
          obtain ⟨lv, rdD⟩ := p4
          obtain ⟨hdD, hpD, hbD⟩ := read1_ok rdC lv rdD h4
          rw [h4] at h
          dsimp only at h
          simp only [Except.ok.injEq, Prod.mk.injEq] at h
          obtain ⟨hrd, hst⟩ := h
          subst hrd
          have hlen : rdC.data.length = rd.data.length := by
            rw [hdC, hdB, hdA]
          refine ⟨by rw [hdD, hdC, hdB, hdA], by omega, by omega⟩

/-- A successful length-size stage consumes exactly one byte. -/
theorem lenSizeStage_ok_pos (rd rd' : Reader) (st st' : RecordState)
    (h : lenSizeStage rd st = .ok (rd', st')) :
    rd'.data = rd.data ∧ rd'.pos = rd.pos + 1 ∧ rd.pos + 1 ≤ rd.data.length := by
  unfold lenSizeStage at h
  cases h1 : rd.read1 with
  | none => rw [h1] at h; exact absurd h (by simp)
  | some p1 =>
    obtain ⟨b, rdA⟩ := p1
    obtain ⟨hdA, hpA, hbA⟩ := read1_ok rd b rdA h1
    rw [h1] at h
    dsimp only at h
    split_ifs at h
    simp only [Except.ok.injEq, Prod.mk.injEq] at h
    obtain ⟨hrd, hst⟩ := h
    subst hrd
    exact ⟨hdA, by omega, by omega⟩

/-- The SPS stage fails when its count byte cannot be read. -/
theorem spsStage_err (nal : NaluOracle) (tc : SpsTcOracle) (res : SpsResOracle)
    (rd : Reader) (st : RecordState) (h : rd.data.length ≤ rd.pos) :
    spsStage nal tc res rd st = .error st := by
  unfold spsStage
  simp only [Reader.read1]
  rw [if_neg (by omega)]

/-- A successful parse requires at least the 6 fixed leading bytes. -/
theorem parse_true_len (nal : NaluOracle) (tc : SpsTcOracle)
    (res : SpsResOracle) (input : List Nat) (st₀ : RecordState)
    (h : (parseInternal nal tc res input st₀).1 = true) :
    6 ≤ input.length := by
  unfold parseInternal stagesThroughPps at h
  cases hh : headerStage ⟨input, 0⟩ st₀ with
  | error r => rw [hh] at h; simp at h
  | ok p =>
    obtain ⟨rd1, st1⟩ := p
    rw [hh] at h
    dsimp only at h
    obtain ⟨hd1, hp1, hb1⟩ := headerStage_ok_pos _ _ _ _ hh
    cases hl : lenSizeStage rd1 st1 with
    | error r => rw [hl] at h; simp at h
    | ok p2 =>
      obtain ⟨rd2, st2⟩ := p2
      rw [hl] at h
      dsimp only at h
      obtain ⟨hd2, hp2, hb2⟩ := lenSizeStage_ok_pos _ _ _ _ hl
      by_contra hlt
      have hle : rd2.data.length ≤ rd2.pos := by
        rw [hd2, hd1, hp2, hp1]
        simp only at hd1 hp1 ⊢
        omega
      rw [spsStage_err nal tc res rd2 st2 hle] at h
      simp at h

/-- C10: every input shorter than 6 bytes fails the parse, whatever its
byte values and whatever the external classification capabilities do. -/
theorem c10_short_input_fails (nal : NaluOracle) (tc : SpsTcOracle)
    (res : SpsResOracle) (input : List Nat) (st₀ : RecordState)
    (h : input.length < 6) :
    (parseInternal nal tc res input st₀).1 = false := by
  by_contra hc
  have ht : (parseInternal nal tc res input st₀).1 = true := by
    revert hc
    cases (parseInternal nal tc res input st₀).1 <;> simp
  have := parse_true_len nal tc res input st₀ ht
  omega

/-- Witness for C10 at a concrete 5-byte input. -/
theorem c10_witness :
    ([(1 : Nat), 0, 0, 0, 0] : List Nat).length < 6 ∧
    (parseInternal noNalu noTc noRes [1, 0, 0, 0, 0] defaultRecord).1 = false :=
  ⟨by decide,
   c10_short_input_fails noNalu noTc noRes [1, 0, 0, 0, 0] defaultRecord
     (by decide)⟩

/-- The record state carried by a stage result, successful or not. -/
def recOf : Except RecordState (Reader × RecordState) → RecordState
  | .ok (_, st) => st
  | .error st => st

theorem parseUnitLoop_nls (nal : NaluOracle) (expected : Nat) :
    ∀ (n : Nat) (rd : Reader) (st : RecordState),
      (recOf (parseUnitLoop nal expected n rd st)).nalu_length_size
        = st.nalu_length_size := by
  intro n
  induction n with
  | zero => intro rd st; rfl
  | succ n ih =>
    intro rd st
    unfold parseUnitLoop
    cases h2 : rd.read2 with
    | none => simp [recOf]
    | some p =>
      obtain ⟨sz, rdA⟩ := p
      dsimp only
      cases hsk : rdA.skipBytes sz with
      | none => simp [recOf]
      | some rdB =>
        dsimp only
        cases hn : nal (rdA.slice sz) with
        | none => simp [recOf]
        | some t =>
          dsimp only
          split_ifs with ht
          · simp [recOf]
          · exact ih rdB _

theorem spsLoop_nls (nal : NaluOracle) (tc : SpsTcOracle) (res : SpsResOracle) :
    ∀ (n : Nat) (first : Bool) (rd : Reader) (st : RecordState),
      (recOf (spsLoop nal tc res first n rd st)).nalu_length_size
        = st.nalu_length_size := by
  intro n
  induction n with
  | zero => intro first rd st; cases first <;> rfl
  | succ n ih =>
    intro first rd st
    unfold spsLoop
    cases h2 : rd.read2 with
    | none => simp [recOf]
    | some p =>
      obtain ⟨sz, rdA⟩ := p
      dsimp only
      cases hsk : rdA.skipBytes sz with
      | none => simp [recOf]
      | some rdB =>
        dsimp only
        cases hn : nal (rdA.slice sz) with
        | none => simp [recOf]
        | some t =>
          dsimp only
          split_ifs with ht hf
          · simp [recOf]
          · cases htc : tc (rdA.slice sz) with
            | none => simp [recOf]
            | some tcv =>
              dsimp only
              cases hres : res (rdA.slice sz) with
              | none => simp [recOf]
              | some q =>
                obtain ⟨cw, ch, pw, ph⟩ := q
                exact ih false rdB _
          · exact ih false rdB _

theorem spsStage_nls (nal : NaluOracle) (tc : SpsTcOracle) (res : SpsResOracle)
    (rd : Reader) (st : RecordState) :
    (recOf (spsStage nal tc res rd st)).nalu_length_size
      = st.nalu_length_size := by
  unfold spsStage
  repeat' split
  all_goals first | exact spsLoop_nls nal tc res _ _ _ _ | simp [recOf]

theorem ppsStage_nls (nal : NaluOracle) (rd : Reader) (st : RecordState) :
    (recOf (ppsStage nal rd st)).nalu_length_size = st.nalu_length_size := by
  unfold ppsStage
  repeat' split
  all_goals first | exact parseUnitLoop_nls nal hPPS _ _ _ | simp [recOf]

theorem extStage_nls (nal : NaluOracle) (rd : Reader) (st : RecordState) :
    (recOf (extStage nal rd st)).nalu_length_size = st.nalu_length_size := by
  unfold extStage
  repeat' split
  all_goals first | exact parseUnitLoop_nls nal hPPS _ _ _ | simp [recOf]

/-- The record returned by ParseInternal, after the length-size byte has
been consumed successfully, keeps the nalu_length_size written there. -/
theorem parseInternal_nls (nal : NaluOracle) (tc : SpsTcOracle)
    (res : SpsResOracle) (input : List Nat) (st₀ : RecordState) (rd1 rd2 : Reader)
    (st1 st2 : RecordState)
    (hh : headerStage ⟨input, 0⟩ st₀ = .ok (rd1, st1))
    (hl : lenSizeStage rd1 st1 = .ok (rd2, st2)) :
    (parseInternal nal tc res input st₀).2.nalu_length_size
      = st2.nalu_length_size := by
  unfold parseInternal stagesThroughPps
  rw [hh]
  dsimp only
  rw [hl]
  dsimp only
  cases hs : spsStage nal tc res rd2 st2 with
  | error r =>
    have := spsStage_nls nal tc res rd2 st2
    rw [hs] at this
    simpa [recOf] using this
  | ok p =>
    obtain ⟨rd3, st3⟩ := p
    have h3 : st3.nalu_length_size = st2.nalu_length_size := by
      have := spsStage_nls nal tc res rd2 st2
      rw [hs] at this
      simpa [recOf] using this
    dsimp only
    cases hp : ppsStage nal rd3 st3 with
    | error r =>
      have := ppsStage_nls nal rd3 st3
      rw [hp] at this
      simp only [recOf] at this
      simpa [this] using h3
    | ok p2 =>
      obtain ⟨rd4, st4⟩ := p2
      have h4 : st4.nalu_length_size = st3.nalu_length_size := by
        have := ppsStage_nls nal rd3 st3
        rw [hp] at this
        simpa [recOf] using this
      dsimp only
      cases he : extStage nal rd4 st4 with
      | error r =>
        have := extStage_nls nal rd4 st4
        rw [he] at this
        simp only [recOf] at this
        simp [this, h4, h3]
      | ok p3 =>
        obtain ⟨rd5, st5⟩ := p3
        have h5 : st5.nalu_length_size = st4.nalu_length_size := by
          have := extStage_nls nal rd4 st4
          rw [he] at this
          simpa [recOf] using this
        simp [h5, h4, h3]

/-- Explicit value of a successful header stage on an in-range input whose
first byte is the version 1. -/
theorem headerStage_compute (input : List Nat) (st₀ : RecordState)
    (h4 : 4 ≤ input.length) (hv : input.getD 0 0 = 1) :
    headerStage ⟨input, 0⟩ st₀ =
      .ok (⟨input, 4⟩,
        { st₀ with version := 1, profile_indication := input.getD 1 0,
                   profile_compatibility := input.getD 2 0,
                   avc_level := input.getD 3 0 }) := by
  unfold headerStage
  have hv2 : input[0]?.getD 0 = 1 := by
    rw [← List.getD_eq_getElem?_getD]
    exact hv
  simp [Reader.read1, hv, hv2,
    show 1 ≤ input.length from by omega,
    show 2 ≤ input.length from by omega,
    show 3 ≤ input.length from by omega,
    show 4 ≤ input.length from by omega]

/-- Explicit value of the length-size stage at cursor position 4. -/
theorem lenSizeStage_compute (input : List Nat) (st : RecordState)
    (h5 : 5 ≤ input.length) :
    lenSizeStage ⟨input, 4⟩ st =
      if input.getD 4 0 &&& 3 = 2 then .error st
      else .ok (⟨input, 5⟩,
        { st with nalu_length_size := (input.getD 4 0 &&& 3) + 1 }) := by
  unfold lenSizeStage
  simp [Reader.read1, show 4 + 1 ≤ input.length from by omega]

/-- C4 (amended): with a version-1 header, the parse fails at the
length-size step exactly when the low 2 bits of the length-size byte hold
the reserved encoding 2 (the upper bits are ignored), leaving
nalu_length_size unwritten; otherwise nalu_length_size is set to the low 2
bits plus one, hence always 1, 2 or 4. -/
theorem c4_length_size (nal : NaluOracle) (tc : SpsTcOracle)
    (res : SpsResOracle) (input : List Nat) (st₀ : RecordState)
    (h5 : 5 ≤ input.length) (hv : input.getD 0 0 = 1) :
    ((input.getD 4 0 &&& 3 = 2) →
      (parseInternal nal tc res input st₀).1 = false ∧
      (parseInternal nal tc res input st₀).2.nalu_length_size
        = st₀.nalu_length_size) ∧
    ((input.getD 4 0 &&& 3 ≠ 2) →
      (parseInternal nal tc res input st₀).2.nalu_length_size
          = (input.getD 4 0 &&& 3) + 1 ∧
        (parseInternal nal tc res input st₀).2.nalu_length_size
          ∈ ([1, 2, 4] : List Nat)) := by
  have hh := headerStage_compute input st₀ (by omega) hv
  constructor
  · intro hres
    have hl := lenSizeStage_compute input
      { st₀ with version := 1, profile_indication := input.getD 1 0,
                 profile_compatibility := input.getD 2 0,
                 avc_level := input.getD 3 0 } h5
    rw [if_pos hres] at hl
    unfold parseInternal stagesThroughPps
    rw [hh]
    dsimp only
    rw [hl]
    exact ⟨rfl, rfl⟩
  · intro hres
    have hl := lenSizeStage_compute input
      { st₀ with version := 1, profile_indication := input.getD 1 0,
                 profile_compatibility := input.getD 2 0,
                 avc_level := input.getD 3 0 } h5
    rw [if_neg hres] at hl
    have hnls := parseInternal_nls nal tc res input st₀ ⟨input, 4⟩ ⟨input, 5⟩
      _ _ hh hl
    rw [hnls]
    have hb : input.getD 4 0 &&& 3 ≤ 3 := Nat.and_le_right
    refine ⟨rfl, ?_⟩
    simp only [List.mem_cons, List.mem_singleton]
    omega

/-- C4 counterexample: the length-size byte 6 has raw value different from
2, yet the parse fails at the length-size step (its low 2 bits are the
reserved encoding) and nalu_length_size is left at 0 instead of being set
to (6 and 3) + 1 = 3. -/
theorem c4_counterexample :
    (6 : Nat) ≠ 2 ∧
    (parseInternal noNalu noTc noRes [1, 0, 0, 0, 6] defaultRecord).1 = false ∧
    (parseInternal noNalu noTc noRes [1, 0, 0, 0, 6] defaultRecord).2.nalu_length_size
      = 0 ∧
    (parseInternal noNalu noTc noRes [1, 0, 0, 0, 6] defaultRecord).2.nalu_length_size
      ≠ 3 := by decide

/-- Witness for C4 at a concrete input whose length-size byte is 0xFF. -/
theorem c4_witness :
    5 ≤ ([(1 : Nat), 0, 0, 0, 0xFF] : List Nat).length ∧
    ([(1 : Nat), 0, 0, 0, 0xFF] : List Nat).getD 0 0 = 1 ∧
    ([(1 : Nat), 0, 0, 0, 0xFF] : List Nat).getD 4 0 &&& 3 ≠ 2 ∧
    (parseInternal noNalu noTc noRes [1, 0, 0, 0, 0xFF] defaultRecord).2.nalu_length_size
      = 4 ∧
    (parseInternal noNalu noTc noRes [1, 0, 0, 0, 0xFF] defaultRecord).2.nalu_length_size
      ∈ ([1, 2, 4] : List Nat) := by
  have h := (c4_length_size noNalu noTc noRes [1, 0, 0, 0, 0xFF] defaultRecord
    (by decide) (by decide)).2 (by decide)
  exact ⟨by decide, by decide, by decide, h.1, h.2⟩

/-- Units appended by a successful unit loop all carry the expected type. -/
theorem parseUnitLoop_types (nal : NaluOracle) (expected : Nat) :
    ∀ (n : Nat) (rd : Reader) (st : RecordState) (rd' : Reader)
      (st' : RecordState),
      parseUnitLoop nal expected n rd st = .ok (rd', st') →
      ∃ app, st'.nalus = st.nalus ++ app ∧ ∀ u ∈ app, u.ntype = expected := by
  intro n
  induction n with
  | zero =>
    intro rd st rd' st' h
    simp only [parseUnitLoop, Except.ok.injEq, Prod.mk.injEq] at h
    obtain ⟨h1, h2⟩ := h
    subst h2
    exact ⟨[], by simp, by simp⟩
  | succ n ih =>
    intro rd st rd' st' h
    unfold parseUnitLoop at h
    cases h2 : rd.read2 with
    | none => rw [h2] at h; exact absurd h (by simp)
    | some p =>
      obtain ⟨sz, rdA⟩ := p
      rw [h2] at h
      dsimp only at h
      cases hsk : rdA.skipBytes sz with
      | none => rw [hsk] at h; exact absurd h (by simp)
      | some rdB =>
        rw [hsk] at h
        dsimp only at h
        cases hn : nal (rdA.slice sz) with
        | none => rw [hn] at h; exact absurd h (by simp)
        | some t =>
          rw [hn] at h
          dsimp only at h
          split_ifs at h with ht
          have hte : t = expected := by omega
          obtain ⟨app, happ, htypes⟩ := ih rdB _ rd' st' h
          refine ⟨⟨rdA.slice sz, t⟩ :: app, ?_, ?_⟩
          · simpa using happ
          · intro u hu
            rcases List.mem_cons.mp hu with rfl | hu
            · exact hte
            · exact htypes u hu

/-- C7: once the input parses through the PPS unit list, the
profile-extension block is entered only for profile indications 100, 110,
122 and 144; with fewer than 4 remaining bytes the stage is a non-fatal
no-op and the whole parse succeeds; with at least 4 remaining bytes, 3
reserved bytes are skipped, the unmasked count byte at offset 3 is read,
and that many length-prefixed units are extracted, every appended one
classified as the secondary (PPS) type. -/
theorem c7_profile_extension (nal : NaluOracle) (tc : SpsTcOracle)
    (res : SpsResOracle) (input : List Nat) (st₀ : RecordState) (rd : Reader)
    (st : RecordState)
    (hthru : stagesThroughPps nal tc res input st₀ = .ok (rd, st)) :
    (st.profile_indication ∉ ([100, 110, 122, 144] : List Nat) →
      extStage nal rd st = .ok (rd, st) ∧
      parseInternal nal tc res input st₀ = (true, st)) ∧
    (st.profile_indication ∈ ([100, 110, 122, 144] : List Nat) →
      (rd.data.length - rd.pos < 4 →
        extStage nal rd st = .ok (rd, st) ∧
        parseInternal nal tc res input st₀ = (true, st)) ∧
      (4 ≤ rd.data.length - rd.pos →
        extStage nal rd st =
          parseUnitLoop nal hPPS (rd.data.getD (rd.pos + 3) 0)
            ⟨rd.data, rd.pos + 4⟩ st ∧
        ∀ (rd' : Reader) (st' : RecordState),
          extStage nal rd st = .ok (rd', st') →
          ∃ app, st'.nalus = st.nalus ++ app ∧
            ∀ u ∈ app, u.ntype = hPPS)) := by
  constructor
  · intro hn
    have hni : ¬(st.profile_indication = 100 ∨ st.profile_indication = 110 ∨
        st.profile_indication = 122 ∨ st.profile_indication = 144) := by
      simpa using hn
    have he : extStage nal rd st = .ok (rd, st) := by
      unfold extStage
      rw [if_neg hni]
    refine ⟨he, ?_⟩
    unfold parseInternal
    rw [hthru]
    dsimp only
    rw [he]
  · intro hm
    have hmi : st.profile_indication = 100 ∨ st.profile_indication = 110 ∨
        st.profile_indication = 122 ∨ st.profile_indication = 144 := by
      simpa using hm
    constructor
    · intro hlt
      have hhb : rd.hasBytes 4 = false := by
        simp only [Reader.hasBytes, decide_eq_false_iff_not]
        omega
      have he : extStage nal rd st = .ok (rd, st) := by
        unfold extStage
        rw [if_pos hmi, hhb]
        exact if_neg (by simp)
      refine ⟨he, ?_⟩
      unfold parseInternal
      rw [hthru]
      dsimp only
      rw [he]
    · intro hge
      have hhb : rd.hasBytes 4 = true := by
        simp only [Reader.hasBytes, decide_eq_true_eq]
        omega
      have heq : extStage nal rd st =
          parseUnitLoop nal hPPS (rd.data.getD (rd.pos + 3) 0)
            ⟨rd.data, rd.pos + 4⟩ st := by
        unfold extStage
        rw [if_pos hmi, hhb]
        simp only [if_true]
        unfold Reader.skipBytes
        rw [if_pos (by omega : rd.pos + 3 ≤ rd.data.length)]
        dsimp only
        unfold Reader.read1
        rw [if_pos (by omega : rd.pos + 3 + 1 ≤ rd.data.length)]
      refine ⟨heq, ?_⟩
      intro rd' st' he
      rw [heq] at he
      exact parseUnitLoop_types nal hPPS _ _ _ _ _ he

/-- Witness for C7 at a concrete input with profile indication 100 and no
bytes remaining after the PPS list. -/
theorem c7_witness :
    stagesThroughPps noNalu noTc noRes [1, 100, 0, 0, 0xFF, 0, 0] defaultRecord
      = .ok (⟨[1, 100, 0, 0, 0xFF, 0, 0], 7⟩,
          { version := 1, profile_indication := 100, nalu_length_size := 4 }) ∧
    ({ version := 1, profile_indication := 100, nalu_length_size := 4 } : RecordState).profile_indication
      ∈ ([100, 110, 122, 144] : List Nat) ∧
    ((⟨[1, 100, 0, 0, 0xFF, 0, 0], 7⟩ : Reader)).data.length
        - ((⟨[1, 100, 0, 0, 0xFF, 0, 0], 7⟩ : Reader)).pos < 4 ∧
    parseInternal noNalu noTc noRes [1, 100, 0, 0, 0xFF, 0, 0] defaultRecord
      = (true, { version := 1, profile_indication := 100, nalu_length_size := 4 }) := by
  have hthru : stagesThroughPps noNalu noTc noRes [1, 100, 0, 0, 0xFF, 0, 0]
      defaultRecord
      = .ok (⟨[1, 100, 0, 0, 0xFF, 0, 0], 7⟩,
          { version := 1, profile_indication := 100, nalu_length_size := 4 }) := by decide
  have h := (c7_profile_extension noNalu noTc noRes _ defaultRecord _ _
    hthru).2 (by decide)
  exact ⟨hthru, by decide, by decide, (h.1 (by decide)).2⟩

end EDash
